import Mathlib

/-!
Verification of the snapshot-diff-and-notify pipeline of `src/pio-checker.ts`
(classes `PIOChecker` and `MultiAccountChecker`).

The TypeScript source is shallowly embedded: each method that carries logic
(`compareData`, `saveData`, `getLatestDataFile`, `run`, `runAll`,
`createDetailedEmailContent`, `formatTablesForEmail`, and the pure tail of
`scrapeData`) becomes a Lean function over explicit data.  I/O steps (reading
the previous snapshot file, launching the browser, writing a file, sending a
notification) are represented by explicit inputs/outputs: fallible steps are
`Except String`-valued inputs, emitted notifications are returned as data.

The file is organized as definitions first, then theorems.
-/

namespace PioSpec

/-- Embeds the `TableData` interface of `pio-checker.ts`.  The TypeScript type
declares `tables: string[][][]` and `numbers: string[]`, but snapshots are
re-read from JSON files produced by possibly older versions, so `compareData`
guards both fields with `|| []` against `null`/`undefined`.  The possible
absence is modelled with `Option`; `Option.getD []` embeds the `|| []`
coercion. -/
structure TableData where
  tables : Option (List (List (List String)))
  numbers : Option (List String)
deriving DecidableEq, Repr

/-- Embeds the `ScrapedData` interface of `pio-checker.ts` (the Snapshot model
of the spec).  `elementText` is the record's application-number identity field
(the spec's `recordId`-equivalent stored inside the snapshot). -/
structure ScrapedData where
  mainText : String
  fields : TableData
  url : String
  timestamp : String
  elementText : String
deriving DecidableEq, Repr

/-! ### JSON serialization (`JSON.stringify` on arrays of strings)

`compareData` compares `tables` and `numbers` by comparing their
`JSON.stringify` serializations.  The embedding reproduces the serialization
of (nested) arrays of strings: `[` elem `,` ... `]` with each string quoted
and escaped exactly as `JSON.stringify` escapes it (`"` and `\` get a
backslash, the five named control characters get their two-character escapes,
remaining control characters below U+0020 get a `\u00XX` escape). -/

/-- One hexadecimal digit as `JSON.stringify` prints it (lowercase). -/
def hexDigitChar (n : Nat) : Char :=
  if n < 10 then Char.ofNat (48 + n) else Char.ofNat (87 + n)

/-- Escape of a single character inside a JSON string literal. -/
def jsonEscapeChar (c : Char) : List Char :=
  if c = '"' then ['\\', '"']
  else if c = '\\' then ['\\', '\\']
  else if c = '\x08' then ['\\', 'b']
  else if c = '\x09' then ['\\', 't']
  else if c = '\x0a' then ['\\', 'n']
  else if c = '\x0c' then ['\\', 'f']
  else if c = '\x0d' then ['\\', 'r']
  else if c.toNat < 32 then
    ['\\', 'u', '0', '0', hexDigitChar (c.toNat / 16), hexDigitChar (c.toNat % 16)]
  else [c]

/-- `JSON.stringify` of one string value. -/
def jsonQuote (s : String) : String :=
  ⟨'"' :: (s.data.flatMap jsonEscapeChar) ++ ['"']⟩

/-- `JSON.stringify` of an array, given the serializations of its elements. -/
def jsonArray (elems : List String) : String :=
  "[" ++ String.intercalate "," elems ++ "]"

/-- `JSON.stringify` of a `string[]` value (used for `fields.numbers`). -/
def stringifyArr1 (l : List String) : String :=
  jsonArray (l.map jsonQuote)

/-- `JSON.stringify` of a `string[][]` value (one table). -/
def stringifyArr2 (l : List (List String)) : String :=
  jsonArray (l.map stringifyArr1)

/-- `JSON.stringify` of a `string[][][]` value (used for `fields.tables`). -/
def stringifyArr3 (l : List (List (List String))) : String :=
  jsonArray (l.map stringifyArr2)

/-! ### The Differ: `PIOChecker.compareData` (lines 342-367) -/

/-- Change-category message pushed when the main text differs. -/
def mainTextMsg : String := "Main content has changed"

/-- Change-category message pushed when the serialized tables differ. -/
def tablesMsg : String := "Table data has changed"

/-- Change-category message pushed when the serialized numbers differ. -/
def numbersMsg : String := "Numbers/dates have changed"

/-- Embeds `PIOChecker.compareData`: three independent checks, each pushing
one fixed message onto `changes`, in source order.  The `.getD []` on
`tables`/`numbers` embeds the `|| []` null-guards of the source. -/
def compareData (oldData newData : ScrapedData) : List String :=
  (if oldData.mainText ≠ newData.mainText then [mainTextMsg] else []) ++
  (if stringifyArr3 (oldData.fields.tables.getD []) ≠
      stringifyArr3 (newData.fields.tables.getD []) then [tablesMsg] else []) ++
  (if stringifyArr1 (oldData.fields.numbers.getD []) ≠
      stringifyArr1 (newData.fields.numbers.getD []) then [numbersMsg] else [])

/-- `changes.length === 0` is the branch test in `PIOChecker.run`; the spec's
derived fact `hasChanges` is its negation. -/
def hasChanges (changes : List String) : Bool :=
  !changes.isEmpty

/-! ### The Orchestrator: `PIOChecker.run` (lines 480-559) and
`MultiAccountChecker.runAll` (lines 592-626)

`run`'s I/O steps are represented by a `RunEnv`: the outcome of reading and
`JSON.parse`-ing the latest snapshot file (`none` when `getLatestDataFile`
returned `null`; `some (.error m)` when the read/parse threw), the outcome of
`scrapeData` (which wraps its own bounded retries and throws after exhausting
them), and the outcome of `saveData`'s `writeFileSync`.  The notifications
passed to `sendNotification` are returned as `(title, message)` pairs.
`sendEmail` never throws (it catches its own errors; the detailed email is a
separate channel from the desktop notification), and the `catch` block of
`run` absorbs every error, so `run` itself never fails. -/

/-- The explicit inputs of one `PIOChecker.run` invocation. -/
structure RunEnv where
  prevFile : Option (Except String ScrapedData)
  fetch : Except String ScrapedData
  save : Except String Unit
deriving Repr

/-- Title of the desktop notification emitted by `run`'s `catch` block. -/
def errorTitle : String := "PIO Checker - Error"

/-- The error notification built in `run`'s `catch` block. -/
def errorNotif (msg : String) : String × String :=
  (errorTitle, "An error occurred: " ++ msg)

/-- Embeds `PIOChecker.run`: read latest → scrape → save → branch on
first-run / no-change / changed, with the `catch` block turning any failure
into an error notification.  Returns the list of notifications emitted. -/
def runChecker (env : RunEnv) : List (String × String) :=
  match env.prevFile with
  | some (Except.error m) => [errorNotif m]
  | prevRead =>
    let previousData : Option ScrapedData :=
      match prevRead with
      | some (Except.ok p) => some p
      | _ => none
    match env.fetch with
    | Except.error m => [errorNotif m]
    | Except.ok currentData =>
      match env.save with
      | Except.error m => [errorNotif m]
      | Except.ok _ =>
        match previousData with
        | none =>
          [("PIO Checker - First Run",
            "Baseline data has been saved. Future runs will detect changes.")]
        | some p =>
          let changes := compareData p currentData
          if changes.isEmpty then
            [("PIO Checker - No Changes",
              "Your application status remains unchanged.")]
          else
            [("PIO Checker - Changes Detected!",
              "Changes found: " ++ String.intercalate ", " changes)]

/-- Embeds the `AccountConfig` interface (the per-record configuration). -/
structure AccountConfig where
  login : String
  password : String
  elementText : String
deriving DecidableEq, Repr

/-- The `PIOChecker` constructor throws exactly when a required configuration
field is falsy (the empty string): `!this.login || !this.password ||
!this.elementText`. -/
def validConfig (c : AccountConfig) : Bool :=
  !(c.login = "" || c.password = "" || c.elementText = "")

/-- The constructor's error message for a missing required field. -/
def missingConfigMsg (c : AccountConfig) : String :=
  "Missing required configuration for account " ++ c.login ++
    ": login, password, or elementText"

/-- One entry of the aggregated result list built by
`MultiAccountChecker.runAll`. -/
structure RunResult where
  accountId : String
  status : String
  error : Option String
deriving DecidableEq, Repr

/-- One iteration of `runAll`'s loop body: construct the `PIOChecker` (which
throws on invalid configuration) and invoke `run` (which never throws — its
`catch` absorbs every failure, including fetch failures).  Returns the pushed
result entry together with the notifications `run` emitted. -/
def runAccount (cfg : AccountConfig) (env : RunEnv) :
    RunResult × List (String × String) :=
  if validConfig cfg then
    (⟨cfg.login, "success", none⟩, runChecker env)
  else
    (⟨cfg.login, "error", some (missingConfigMsg cfg)⟩, [])

/-- Embeds `MultiAccountChecker.runAll`'s sequential loop, tracking each
record's result entry and emitted notifications. -/
def runAll (accounts : List (AccountConfig × RunEnv)) :
    List (RunResult × List (String × String)) :=
  accounts.map fun p => runAccount p.1 p.2

/-- The aggregated per-record result list that `runAll` returns. -/
def runAllResults (accounts : List (AccountConfig × RunEnv)) : List RunResult :=
  (runAll accounts).map Prod.fst

/-! ### The Snapshot Store: `PIOChecker.saveData` (lines 325-340) and
`PIOChecker.getLatestDataFile` (lines 312-323)

`saveData` reads the current local time from `new Date()`, formats it as
`YYYY-MM-DDTHH-MM-SS` (the unpadded `getFullYear()`, then
`String(...).padStart(2, '0')` of the 1-based month, day, hours, minutes and
seconds), and writes `szczegoly-wniosku_<timestamp>.json` with
`writeFileSync`.  The `Date` reading is embedded as an explicit `LocalTime`
record (whose `month` is the stored `getMonth() + 1` value), the decimal
rendering of `String(n)` as a fuel-based printer, and the per-record data
directory as an association list from file name to content on which
`writeFileSync` replaces an existing name and creates a fresh one otherwise.

`getLatestDataFile` lists the directory, keeps names matching
`startsWith('szczegoly-wniosku_') && endsWith('.json')`, sorts them with the
default lexicographic `Array.prototype.sort`, reverses, and returns the first
entry or `null` for an empty directory/history. -/

/-- Fuel-based decimal printer; with sufficient fuel this is JavaScript's
`String(n)` for a natural `n`. -/
def decCharsAux : Nat → Nat → List Char
  | 0, _ => []
  | fuel + 1, n =>
    if n < 10 then [Nat.digitChar n]
    else decCharsAux fuel (n / 10) ++ [Nat.digitChar (n % 10)]

/-- `String(n)` of JavaScript for a natural `n`, as a character list. -/
def decChars (n : Nat) : List Char := decCharsAux (n + 1) n

/-- `String.prototype.padStart(2, '0')`. -/
def padStart2 (l : List Char) : List Char :=
  if 2 ≤ l.length then l else List.replicate (2 - l.length) '0' ++ l

/-- One zero-padded two-digit timestamp field: `String(n).padStart(2, '0')`. -/
def field2 (n : Nat) : List Char := padStart2 (decChars n)

/-- The `new Date()` reading used by `saveData`: local-time components, with
`month` holding the saved 1-based `getMonth() + 1` value. -/
structure LocalTime where
  year : Nat
  month : Nat
  day : Nat
  hour : Nat
  minute : Nat
  second : Nat
deriving DecidableEq, Repr

/-- Well-formedness of a `Date` reading: a four-digit year and two-digit
remaining fields (every real date satisfies this comfortably). -/
def validTime (t : LocalTime) : Prop :=
  1000 ≤ t.year ∧ t.year < 10000 ∧ t.month < 100 ∧ t.day < 100 ∧
    t.hour < 100 ∧ t.minute < 100 ∧ t.second < 100

instance (t : LocalTime) : Decidable (validTime t) := by
  unfold validTime; infer_instance

/-- The characters of `szczegoly-wniosku_${timestamp}.json` built by
`saveData`. -/
def filenameChars (t : LocalTime) : List Char :=
  "szczegoly-wniosku_".data ++ decChars t.year ++ ['-'] ++ field2 t.month ++ ['-'] ++
    field2 t.day ++ ['T'] ++ field2 t.hour ++ ['-'] ++ field2 t.minute ++ ['-'] ++
    field2 t.second ++ ".json".data

/-- The snapshot file name `saveData` writes for capture time `t`. -/
def fileName (t : LocalTime) : String := (filenameChars t).asString

/-- Chronological (lexicographic component-wise) order on capture times. -/
def chronoLt (a b : LocalTime) : Prop :=
  a.year < b.year ∨ (a.year = b.year ∧ (a.month < b.month ∨ (a.month = b.month ∧
    (a.day < b.day ∨ (a.day = b.day ∧ (a.hour < b.hour ∨ (a.hour = b.hour ∧
    (a.minute < b.minute ∨ (a.minute = b.minute ∧ a.second < b.second)))))))))

instance (a b : LocalTime) : Decidable (chronoLt a b) := by
  unfold chronoLt; infer_instance

/-- `fs.writeFileSync` on the record's data directory, modelled as an
association list: an existing entry with the same name is replaced, otherwise
a new entry is created. -/
def writeFile (name : String) (d : ScrapedData) (store : List (String × ScrapedData)) :
    List (String × ScrapedData) :=
  if store.any (fun e => e.1 = name) then
    store.map (fun e => if e.1 = name then (name, d) else e)
  else
    store ++ [(name, d)]

/-- Embeds `PIOChecker.saveData`: formats the capture time into the file
name, writes the snapshot, and returns the written locator together with the
updated directory. -/
def saveData (t : LocalTime) (data : ScrapedData)
    (store : List (String × ScrapedData)) : String × List (String × ScrapedData) :=
  (fileName t, writeFile (fileName t) data store)

/-- The filter of `getLatestDataFile`:
`file.startsWith('szczegoly-wniosku_') && file.endsWith('.json')`. -/
def fileFilter (f : String) : Bool :=
  "szczegoly-wniosku_".data.isPrefixOf f.data && ".json".data.isSuffixOf f.data

/-- Embeds `PIOChecker.getLatestDataFile` over the directory's file names:
filter, lexicographic sort, reverse, first element — `null` (here `none`)
when the directory is missing or holds no snapshot. -/
def getLatestDataFile (names : List String) : Option String :=
  ((names.filter fileFilter).insertionSort (· ≤ ·)).reverse.head?

/-! ### The Report Builder: `PIOChecker.createDetailedEmailContent`
(lines 412-453) and `PIOChecker.formatTablesForEmail` (lines 455-478)

The HTML strings are reproduced verbatim, including the template literals'
newlines and indentation.  `this.accountId`, `this.elementText` and the
`new Date().toLocaleString()` timestamp are explicit parameters. -/

/-- One table cell: `<th>` with inline style for the header row (row 0),
`<td>` otherwise. -/
def formatCell (rowIndex : Nat) (cell : String) : String :=
  let tag := if rowIndex = 0 then "th" else "td"
  "<" ++ tag ++ " style=\"padding: 5px; border: 1px solid #ccc;\">" ++ cell ++
    "</" ++ tag ++ ">"

/-- One table row of `formatTablesForEmail`'s inner `forEach`. -/
def formatRow (rowIndex : Nat) (row : List String) : String :=
  "<tr>" ++ String.join (row.map (formatCell rowIndex)) ++ "</tr>"

/-- The row loop with its `rowIndex` counter. -/
def formatRowsGo : Nat → List (List String) → String
  | _, [] => ""
  | i, r :: rs => formatRow i r ++ formatRowsGo (i + 1) rs

/-- One table of `formatTablesForEmail`'s outer `forEach` (0-based `index`,
displayed 1-based). -/
def formatOneTable (index : Nat) (table : List (List String)) : String :=
  "<h5>Table " ++ toString (index + 1) ++ ":</h5>" ++
  "<table border=\"1\" style=\"border-collapse: collapse; margin-bottom: 10px;\">" ++
  formatRowsGo 0 table ++ "</table>"

/-- The table loop with its `index` counter. -/
def formatTablesGo : Nat → List (List (List String)) → String
  | _, [] => ""
  | i, t :: ts => formatOneTable i t ++ formatTablesGo (i + 1) ts

/-- The explicit placeholder `formatTablesForEmail` returns for missing or
empty table data. -/
def noTableDataMsg : String := "<p>No table data available</p>"

/-- Embeds `PIOChecker.formatTablesForEmail`: the `!tables || tables.length
=== 0` guard returns the placeholder, otherwise the tables are rendered in
order. -/
def formatTablesForEmail (tables : List (List (List String))) : String :=
  if tables = [] then noTableDataMsg
  else formatTablesGo 0 tables

/-- Embeds `PIOChecker.createDetailedEmailContent`: header, `<li>` change
list, conditional table section (`changes.includes('Table data has
changed')`), conditional number section (`changes.includes('Numbers/dates
have changed')`, rendering `(fields.numbers || []).join(', ')`), and footer.
-/
def createDetailedEmailContent (accountId elementText timestamp : String)
    (changes : List String) (previousData currentData : ScrapedData) : String :=
  "\n            <h2>PIO Application Status Update</h2>\n            <p><strong>Account:</strong> "
  ++ accountId
  ++ "</p>\n            <p><strong>Time:</strong> "
  ++ timestamp
  ++ "</p>\n            <p><strong>Application Number:</strong> "
  ++ elementText
  ++ "</p>\n            <p><strong>Changes Detected:</strong></p>\n            <ul>\n        "
  ++ String.join (changes.map fun change => "<li>" ++ change ++ "</li>")
  ++ "</ul>"
  ++ (if changes.contains tablesMsg then
        "<h3>Table Changes:</h3>"
        ++ "<h4>Previous Data:</h4>"
        ++ formatTablesForEmail (previousData.fields.tables.getD [])
        ++ "<h4>Current Data:</h4>"
        ++ formatTablesForEmail (currentData.fields.tables.getD [])
      else "")
  ++ (if changes.contains numbersMsg then
        "<h3>Number/Date Changes:</h3>"
        ++ "<p><strong>Previous:</strong> "
        ++ String.intercalate ", " (previousData.fields.numbers.getD [])
        ++ "</p>"
        ++ "<p><strong>Current:</strong> "
        ++ String.intercalate ", " (currentData.fields.numbers.getD [])
        ++ "</p>"
      else "")
  ++ "\n            <hr>\n            <p><strong>Application URL:</strong> <a href=\""
  ++ currentData.url
  ++ "\">"
  ++ currentData.url
  ++ "</a></p>\n            <p><em>This is an automated notification from PIO Checker for account "
  ++ accountId
  ++ ".</em></p>\n        "

/-! ### The extraction tail of `PIOChecker.scrapeData` (lines 271-282)

After the browser steps, `scrapeData` computes
`numbers = mainText.match(/\d+[\.\d]*(?:\.\d+\.\d+)?/g) || []` on the raw
page text and stores `mainText: mainText.trim()`.  Since the quantifiers are
greedy and the final group is optional (and subsumed by the greedy `[\.\d]*`),
a match of this regex is exactly a maximal run of digits and dots that starts
with a digit; global matching scans left to right emitting these maximal runs
in order.  `numTokensGo` embeds that scan: `cur` is the token being built
(non-empty exactly while the scan is inside a token, so a `.` extends a token
iff `cur ≠ []`). -/

/-- The left-to-right global-match scan of `/\d+[\.\d]*(?:\.\d+\.\d+)?/g`. -/
def numTokensGo : List Char → List Char → List (List Char)
  | [], cur => if cur = [] then [] else [cur]
  | c :: cs, cur =>
    if c.isDigit then numTokensGo cs (cur ++ [c])
    else if c = '.' ∧ cur ≠ [] then numTokensGo cs (cur ++ [c])
    else (if cur = [] then [] else [cur]) ++ numTokensGo cs []

/-- `mainText.match(/\d+[\.\d]*(?:\.\d+\.\d+)?/g) || []` of `scrapeData`. -/
def extractNumbers (s : String) : List String :=
  (numTokensGo s.data []).map List.asString

/-- The whitespace class removed by JavaScript's `String.prototype.trim`:
ECMAScript WhiteSpace (TAB, VT, FF, SP, NBSP, ZWNBSP and the Unicode `Zs`
space separators U+1680, U+2000-U+200A, U+202F, U+205F, U+3000) together with
the LineTerminator set (LF, CR, LS U+2028, PS U+2029).  Every member is
neither a digit nor a dot. -/
def isJsSpace (c : Char) : Bool :=
  c = ' ' || c = '\t' || c = '\n' || c = '\r' || c = '\x0b' || c = '\x0c' ||
    c = '\xa0' || c = '\uFEFF' || c = '\u1680' || c = '\u2000' || c = '\u2001' ||
    c = '\u2002' || c = '\u2003' || c = '\u2004' || c = '\u2005' || c = '\u2006' ||
    c = '\u2007' || c = '\u2008' || c = '\u2009' || c = '\u200A' || c = '\u2028' ||
    c = '\u2029' || c = '\u202F' || c = '\u205F' || c = '\u3000'

/-- `String.prototype.trim` on the character list. -/
def jsTrimL (l : List Char) : List Char :=
  ((l.dropWhile isJsSpace).reverse.dropWhile isJsSpace).reverse

/-- `mainText.trim()` of `scrapeData`. -/
def jsTrim (s : String) : String :=
  (jsTrimL s.data).asString

/-- The pure tail of `scrapeData` (lines 271-282): builds the `ScrapedData`
object from the raw page text (`document.body.innerText`), the extracted
table data, and the page metadata.  `mainText` is stored trimmed while the
numeric tokens are extracted from the untrimmed raw text. -/
def mkScraped (rawMainText : String) (tableData : List (List (List String)))
    (url timestamp elementText : String) : ScrapedData :=
  { mainText := jsTrim rawMainText,
    fields := { tables := some tableData, numbers := some (extractNumbers rawMainText) },
    url := url, timestamp := timestamp, elementText := elementText }

/-!
# Theorems
-/

/-- The three change-category messages of `compareData` are pairwise
distinct string literals. -/
theorem msgs_distinct :
    mainTextMsg ≠ tablesMsg ∧ mainTextMsg ≠ numbersMsg ∧ tablesMsg ≠ numbersMsg := by
  refine ⟨?_, ?_, ?_⟩ <;> decide

/-- The content category is reported iff the `mainText` strings differ. -/
theorem compareData_mainText_mem_iff (o n : ScrapedData) :
    mainTextMsg ∈ compareData o n ↔ o.mainText ≠ n.mainText := by
  obtain ⟨d1, d2, d3⟩ := msgs_distinct
  unfold compareData
  split_ifs with h1 h2 h3 <;> simp_all

/-- The numeric category is reported iff the serialized numbers differ. -/
theorem compareData_numbers_mem_iff (o n : ScrapedData) :
    numbersMsg ∈ compareData o n ↔
      stringifyArr1 (o.fields.numbers.getD []) ≠ stringifyArr1 (n.fields.numbers.getD []) := by
  obtain ⟨d1, d2, d3⟩ := msgs_distinct
  unfold compareData
  split_ifs with h1 h2 h3 <;> simp_all [d2.symm, d3.symm]

/-- C3: `compareData` evaluates exactly three independent category checks in
the fixed source order content-change, table-change, numeric-change (all
evaluated, never short-circuited): the content category is present iff the
`mainText` strings are unequal, the table category iff the order-preserving
`JSON.stringify` serializations of the tables differ, and the numeric category
iff the serializations of the numbers differ; the resulting list has no
duplicates, is a sublist of the fixed evaluation order, and the
`changes.length === 0` branch test (`hasChanges`) holds iff the list is
non-empty. -/
theorem compareData_categories (o n : ScrapedData) :
    (mainTextMsg ∈ compareData o n ↔ o.mainText ≠ n.mainText)
  ∧ (tablesMsg ∈ compareData o n ↔
      stringifyArr3 (o.fields.tables.getD []) ≠ stringifyArr3 (n.fields.tables.getD []))
  ∧ (numbersMsg ∈ compareData o n ↔
      stringifyArr1 (o.fields.numbers.getD []) ≠ stringifyArr1 (n.fields.numbers.getD []))
  ∧ (compareData o n).Nodup
  ∧ List.Sublist (compareData o n) [mainTextMsg, tablesMsg, numbersMsg]
  ∧ (hasChanges (compareData o n) = true ↔ compareData o n ≠ []) := by
  obtain ⟨d1, d2, d3⟩ := msgs_distinct
  unfold compareData
  split_ifs with h1 h2 h3 <;>
    simp_all [hasChanges, d1, d2, d3, d1.symm, d2.symm, d3.symm]

/-- C8: diffing any snapshot against itself yields an empty change list,
i.e. a diff result with `hasChanges = false`. -/
theorem compareData_self (s : ScrapedData) :
    compareData s s = [] ∧ hasChanges (compareData s s) = false := by
  simp [compareData, hasChanges]

/-- C10: `compareData` coerces a missing (`null`/`undefined`) `tables` or
`numbers` field to the empty sequence (`|| []`) before serialized comparison,
so a snapshot with an absent field diffs against a snapshot with the
corresponding empty field with no table-change and no numeric-change
reported, and no error is raised: the result is fully determined by the
`mainText` comparison. -/
theorem compareData_total_on_missing_fields (o n : ScrapedData)
    (ht : o.fields.tables = none) (ht' : n.fields.tables = some [])
    (hn : o.fields.numbers = none) (hn' : n.fields.numbers = some []) :
    tablesMsg ∉ compareData o n ∧ numbersMsg ∉ compareData o n ∧
    compareData o n = (if o.mainText ≠ n.mainText then [mainTextMsg] else []) := by
  obtain ⟨d1, d2, d3⟩ := msgs_distinct
  unfold compareData
  rw [ht, ht', hn, hn']
  split_ifs with h1 <;> simp_all [d1.symm, d2.symm, d3, d3.symm]

/-- Witness for C10 at a concrete pair of snapshots: the first lacks both
optional field groups, the second has them present but empty. -/
theorem compareData_total_on_missing_fields_witness :
    tablesMsg ∉ compareData
        ⟨"text", ⟨none, none⟩, "u1", "t1", "REC-1"⟩
        ⟨"text", ⟨some [], some []⟩, "u2", "t2", "REC-1"⟩
  ∧ numbersMsg ∉ compareData
        ⟨"text", ⟨none, none⟩, "u1", "t1", "REC-1"⟩
        ⟨"text", ⟨some [], some []⟩, "u2", "t2", "REC-1"⟩
  ∧ compareData
        ⟨"text", ⟨none, none⟩, "u1", "t1", "REC-1"⟩
        ⟨"text", ⟨some [], some []⟩, "u2", "t2", "REC-1"⟩
      = (if ("text" : String) ≠ "text" then [mainTextMsg] else []) :=
  compareData_total_on_missing_fields _ _ rfl rfl rfl rfl

/-- C2 counterexample: `compareData` performs no record-identity check.  Two
snapshots that differ only in their identity field (`elementText`, the
record's application number) are compared successfully — the code returns the
empty change list instead of failing with any `InvalidComparisonError` (no
such error exists in the source). -/
theorem compareData_cross_record_counterexample :
    (ScrapedData.mk "t" ⟨some [], some []⟩ "u" "ts" "REC-A").elementText ≠
      (ScrapedData.mk "t" ⟨some [], some []⟩ "u" "ts" "REC-B").elementText
  ∧ compareData
      (ScrapedData.mk "t" ⟨some [], some []⟩ "u" "ts" "REC-A")
      (ScrapedData.mk "t" ⟨some [], some []⟩ "u" "ts" "REC-B") = [] := by
  refine ⟨by decide, ?_⟩
  simp [compareData]

/-- C2 amended: `compareData` requires no `recordId` precondition and never
fails; it is a total function whose result is independent of the identity
fields (`elementText`, `url`, `timestamp`) of both snapshots, depending only
on `mainText` and `fields`. -/
theorem compareData_ignores_identity (o n : ScrapedData)
    (e1 e2 u1 u2 t1 t2 : String) :
    compareData
      { o with elementText := e1, url := u1, timestamp := t1 }
      { n with elementText := e2, url := u2, timestamp := t2 }
      = compareData o n := by
  simp [compareData]

/-- Witness for C2 amended at concrete snapshots. -/
theorem compareData_ignores_identity_witness :
    compareData
      { ScrapedData.mk "a" ⟨none, some ["1"]⟩ "u" "ts" "R1" with
          elementText := "X", url := "v", timestamp := "ts2" }
      { ScrapedData.mk "b" ⟨none, some ["2"]⟩ "u" "ts" "R1" with
          elementText := "Y", url := "w", timestamp := "ts3" }
      = compareData
          (ScrapedData.mk "a" ⟨none, some ["1"]⟩ "u" "ts" "R1")
          (ScrapedData.mk "b" ⟨none, some ["2"]⟩ "u" "ts" "R1") :=
  compareData_ignores_identity _ _ "X" "Y" "v" "w" "ts2" "ts3"

/-- C6: every single-record run terminates by emitting exactly one desktop
notification, whose title is one of the four kinds first-run (baseline),
no-changes, changes-detected, or error: the first-run branch, the unchanged
branch, the changed branch, and every failure path (previous-file read/parse,
fetch, save) each produce a notification, so no run ends silently. -/
theorem run_always_notifies (env : RunEnv) :
    ∃ t m, runChecker env = [(t, m)] ∧
      (t = "PIO Checker - First Run" ∨ t = "PIO Checker - No Changes" ∨
       t = "PIO Checker - Changes Detected!" ∨ t = errorTitle) := by
  obtain ⟨pf, f, sv⟩ := env
  rcases pf with _ | pr
  · rcases f with m | cur
    · exact ⟨_, _, rfl, by simp [errorNotif]⟩
    · rcases sv with m | u
      · exact ⟨_, _, rfl, by simp [errorNotif]⟩
      · exact ⟨_, _, rfl, by simp⟩
  · rcases pr with m | p
    · exact ⟨_, _, rfl, by simp [errorNotif]⟩
    · rcases f with m | cur
      · exact ⟨_, _, rfl, by simp [errorNotif]⟩
      · rcases sv with m | u
        · exact ⟨_, _, rfl, by simp [errorNotif]⟩
        · by_cases h : (compareData p cur).isEmpty
          · refine ⟨"PIO Checker - No Changes",
              "Your application status remains unchanged.", ?_, by simp⟩
            simp [runChecker, h]
          · refine ⟨"PIO Checker - Changes Detected!",
              "Changes found: " ++ String.intercalate ", " (compareData p cur), ?_, by simp⟩
            simp [runChecker, h]

/-- C1 counterexample: three records whose configurations are all valid, where
fetch fails for the second (`scrapeData` throws after its retries).
`PIOChecker.run` absorbs the failure in its own `catch` block — it emits an
error notification but does not rethrow — so `runAll`'s aggregated result
marks ALL three records `success`: the failing record's outcome is not marked
`error`, contradicting the claim. -/
theorem runAll_fetch_failure_counterexample :
    runAllResults
        [(⟨"acc-a", "pw", "W1"⟩,
          ⟨none, Except.ok ⟨"t", ⟨some [], some []⟩, "u", "ts", "W1"⟩, Except.ok ()⟩),
         (⟨"acc-b", "pw", "W2"⟩,
          ⟨none, Except.error "Failed to scrape data after 3 attempts: net down",
           Except.ok ()⟩),
         (⟨"acc-c", "pw", "W3"⟩,
          ⟨none, Except.ok ⟨"t", ⟨some [], some []⟩, "u", "ts", "W3"⟩, Except.ok ()⟩)]
      = [⟨"acc-a", "success", none⟩, ⟨"acc-b", "success", none⟩,
         ⟨"acc-c", "success", none⟩]
  ∧ (runAccount ⟨"acc-b", "pw", "W2"⟩
        ⟨none, Except.error "Failed to scrape data after 3 attempts: net down",
         Except.ok ()⟩).2
      = [errorNotif "Failed to scrape data after 3 attempts: net down"] := by
  exact ⟨rfl, rfl⟩

/-- C1 amended: over any sequence of configured records, the aggregated result
list has one entry per record in input order (carrying that record's login as
its id), and one record's failure never aborts the processing of the
remaining records.  However, a fetch failure is absorbed inside the
per-record `run` (whose `catch` emits an error notification carrying the
failure message and does not rethrow), so the fetch-failing record's
aggregate outcome is `success`; only a failure that escapes the per-record
run — the constructor's configuration validation — yields an aggregate
outcome of `error` carrying its message. -/
theorem runAll_isolation (accounts : List (AccountConfig × RunEnv)) :
    ((runAllResults accounts).map RunResult.accountId
        = accounts.map fun p => p.1.login)
  ∧ (∀ p ∈ accounts, validConfig p.1 = true →
      (runAccount p.1 p.2).1 = ⟨p.1.login, "success", none⟩
      ∧ ∀ m, p.2.fetch = Except.error m →
          (∀ e, p.2.prevFile ≠ some (Except.error e)) →
          (runAccount p.1 p.2).2 = [errorNotif m])
  ∧ (∀ p ∈ accounts, validConfig p.1 = false →
      (runAccount p.1 p.2).1 = ⟨p.1.login, "error", some (missingConfigMsg p.1)⟩) := by
  refine ⟨?_, ?_, ?_⟩
  · simp only [runAllResults, runAll, List.map_map]
    apply List.map_congr_left
    intro p _
    simp only [Function.comp_apply, runAccount]
    split <;> rfl
  · rintro ⟨cfg, env⟩ _ hv
    refine ⟨by simp [runAccount, hv], ?_⟩
    intro m hm hpf
    simp only [runAccount, hv, if_pos]
    obtain ⟨pf, f, sv⟩ := env
    rcases pf with _ | pr
    · simp only at hm
      subst hm
      rfl
    · rcases pr with e | p
      · exact absurd rfl (hpf e)
      · simp only at hm
        subst hm
        rfl
  · rintro ⟨cfg, env⟩ _ hv
    simp [runAccount, hv]

/-- Witness for C1 amended: a two-record input where the second record's
fetch fails; the theorem is applied to extract the order-preserving id list,
the absorbed-failure behavior of the second record, and the error outcome of
a record with an invalid (empty-password) configuration. -/
theorem runAll_isolation_witness :
    ((runAllResults
        [(⟨"acc-a", "pw", "W1"⟩,
          ⟨none, Except.ok ⟨"t", ⟨some [], some []⟩, "u", "ts", "W1"⟩, Except.ok ()⟩),
         (⟨"acc-b", "pw", "W2"⟩,
          ⟨none, Except.error "boom", Except.ok ()⟩),
         (⟨"acc-d", "", "W4"⟩,
          ⟨none, Except.ok ⟨"t", ⟨some [], some []⟩, "u", "ts", "W4"⟩, Except.ok ()⟩)]).map
        RunResult.accountId = ["acc-a", "acc-b", "acc-d"])
  ∧ (runAccount ⟨"acc-b", "pw", "W2"⟩ ⟨none, Except.error "boom", Except.ok ()⟩).2
      = [errorNotif "boom"]
  ∧ (runAccount ⟨"acc-d", "", "W4"⟩
        ⟨none, Except.ok ⟨"t", ⟨some [], some []⟩, "u", "ts", "W4"⟩, Except.ok ()⟩).1
      = ⟨"acc-d", "error", some (missingConfigMsg ⟨"acc-d", "", "W4"⟩)⟩ := by
  have h := runAll_isolation
    [(⟨"acc-a", "pw", "W1"⟩,
      ⟨none, Except.ok ⟨"t", ⟨some [], some []⟩, "u", "ts", "W1"⟩, Except.ok ()⟩),
     (⟨"acc-b", "pw", "W2"⟩,
      ⟨none, Except.error "boom", Except.ok ()⟩),
     (⟨"acc-d", "", "W4"⟩,
      ⟨none, Except.ok ⟨"t", ⟨some [], some []⟩, "u", "ts", "W4"⟩, Except.ok ()⟩)]
  refine ⟨h.1, ?_, ?_⟩
  · exact (h.2.1
      (⟨"acc-b", "pw", "W2"⟩, ⟨none, Except.error "boom", Except.ok ()⟩)
      (by simp) (by decide)).2 "boom" rfl
      (by intro e he; exact Option.noConfusion he)
  · exact h.2.2
      (⟨"acc-d", "", "W4"⟩,
        ⟨none, Except.ok ⟨"t", ⟨some [], some []⟩, "u", "ts", "W4"⟩, Except.ok ()⟩)
      (by simp) (by decide)

/-- An infix of `b` is an infix of `a ++ b`. -/
theorem infix_app_right {α : Type} {p b : List α} (h : p <:+: b) (a : List α) :
    p <:+: a ++ b := by
  obtain ⟨u, v, rfl⟩ := h
  exact ⟨a ++ u, v, by simp⟩

/-- An infix of `a` is an infix of `a ++ b`. -/
theorem infix_app_left {α : Type} {p a : List α} (h : p <:+: a) (b : List α) :
    p <:+: a ++ b := by
  obtain ⟨u, v, rfl⟩ := h
  exact ⟨u, v ++ b, by simp⟩

/-- A needle that splits over two adjacent segments is an infix. -/
theorem infix_spanning {α : Type} {p a b : List α} (h : p = a ++ b) (rest : List α) :
    p <:+: a ++ (b ++ rest) :=
  ⟨[], rest, by simp [h]⟩

set_option maxRecDepth 100000 in
/-- C7 counterexample: a report whose numeric-change section is included with
empty `numericTokens` renders the empty structure
`<p><strong>Previous:</strong> </p>` (the `join` of an empty list), and the
output contains no "No ..." placeholder text at all — `formatTablesForEmail`'s
placeholder is the only placeholder in the code and is reserved for tables. -/
theorem report_numbers_no_placeholder_counterexample :
    "<p><strong>Previous:</strong> </p>".data <:+:
      (createDetailedEmailContent "A" "E" "T" [numbersMsg]
        ⟨"a", ⟨some [], some []⟩, "u", "t", "E"⟩
        ⟨"a", ⟨some [], some []⟩, "u", "t", "E"⟩).data
  ∧ ¬ ("No ".data <:+:
      (createDetailedEmailContent "A" "E" "T" [numbersMsg]
        ⟨"a", ⟨some [], some []⟩, "u", "t", "E"⟩
        ⟨"a", ⟨some [], some []⟩, "u", "t", "E"⟩).data) := by
  constructor <;> decide

/-- C7 amended: whenever the table-change section is included in the detailed
report and the (coerced) tables of either side are empty, the explicit
placeholder `<p>No table data available</p>` is rendered for them; but
missing or empty `numericTokens` in an included numeric-change section are
rendered as an empty joined list (`<p><strong>Previous:</strong> </p>`), not
as a "no data" placeholder. -/
theorem report_empty_data_rendering (accountId elementText timestamp : String)
    (changes : List String) (prev cur : ScrapedData)
    (h1 : tablesMsg ∈ changes) (h2 : numbersMsg ∈ changes)
    (h3 : prev.fields.tables.getD [] = []) (h4 : cur.fields.tables.getD [] = [])
    (h5 : prev.fields.numbers.getD [] = []) :
    noTableDataMsg.data <:+:
      (createDetailedEmailContent accountId elementText timestamp changes prev cur).data
  ∧ "<p><strong>Previous:</strong> </p>".data <:+:
      (createDetailedEmailContent accountId elementText timestamp changes prev cur).data := by
  have hc1 : changes.contains tablesMsg = true := List.elem_eq_true_of_mem h1
  have hc2 : changes.contains numbersMsg = true := List.elem_eq_true_of_mem h2
  constructor
  · simp only [createDetailedEmailContent, hc1, hc2, h3, h4, h5, if_pos, ite_true,
      reduceIte, formatTablesForEmail, String.intercalate, String.data_append,
      List.append_assoc]
    repeat first
      | exact infix_app_left (List.infix_refl _) _
      | exact infix_spanning (by decide) _
      | apply infix_app_right
  · simp only [createDetailedEmailContent, hc1, hc2, h3, h4, h5, if_pos, ite_true,
      reduceIte, formatTablesForEmail, String.intercalate, String.data_append,
      List.append_assoc]
    repeat first
      | exact infix_app_left (List.infix_refl _) _
      | exact infix_spanning (by decide) _
      | apply infix_app_right

/-- Witness for C7 amended: applied at a concrete report with both sections
included, absent tables on one side, empty on the other, and empty previous
numbers. -/
theorem report_empty_data_rendering_witness :
    noTableDataMsg.data <:+:
      (createDetailedEmailContent "A" "E" "T" [tablesMsg, numbersMsg]
        ⟨"a", ⟨none, some []⟩, "u", "t", "E"⟩
        ⟨"b", ⟨some [], some ["7"]⟩, "u", "t", "E"⟩).data
  ∧ "<p><strong>Previous:</strong> </p>".data <:+:
      (createDetailedEmailContent "A" "E" "T" [tablesMsg, numbersMsg]
        ⟨"a", ⟨none, some []⟩, "u", "t", "E"⟩
        ⟨"b", ⟨some [], some ["7"]⟩, "u", "t", "E"⟩).data :=
  report_empty_data_rendering "A" "E" "T" [tablesMsg, numbersMsg]
    ⟨"a", ⟨none, some []⟩, "u", "t", "E"⟩
    ⟨"b", ⟨some [], some ["7"]⟩, "u", "t", "E"⟩
    (by simp) (by simp) rfl rfl rfl

/-- JavaScript whitespace is neither a digit nor a dot, so trimming cannot
touch characters that participate in numeric-token matches. -/
theorem isJsSpace_not_token {c : Char} (h : isJsSpace c = true) :
    c.isDigit = false ∧ c ≠ '.' := by
  simp only [isJsSpace, Bool.or_eq_true, decide_eq_true_eq, or_assoc] at h
  rcases h with h|h|h|h|h|h|h|h|h|h|h|h|h|h|h|h|h|h|h|h|h|h|h|h|h <;>
    subst h <;> decide

/-- A digit-free prefix contributes no tokens to the scan. -/
theorem numTokensGo_prefix {w : List Char} (hw : ∀ c ∈ w, c.isDigit = false)
    (s : List Char) : numTokensGo (w ++ s) [] = numTokensGo s [] := by
  induction w with
  | nil => rfl
  | cons c w ih =>
    have hc := hw c (by simp)
    have hw' : ∀ c ∈ w, c.isDigit = false := fun c hc => hw c (by simp [hc])
    simp only [List.cons_append, numTokensGo, hc, Bool.false_eq_true, if_false,
      ne_eq, not_true_eq_false, and_false, ite_false, List.nil_append]
    exact ih hw'

/-- Scanning a list with no digits and no dots only closes the current
token. -/
theorem numTokensGo_close {w : List Char} (hw : ∀ c ∈ w, c.isDigit = false ∧ c ≠ '.') :
    ∀ cur, numTokensGo w cur = if cur = [] then [] else [cur] := by
  induction w with
  | nil => intro cur; rfl
  | cons c w ih =>
    intro cur
    obtain ⟨h1, h2⟩ := hw c (by simp)
    have hw' : ∀ c ∈ w, c.isDigit = false ∧ c ≠ '.' := fun c hc => hw c (by simp [hc])
    simp only [numTokensGo, h1, Bool.false_eq_true, if_false, h2, false_and, ite_false,
      ih hw' []]
    simp

/-- A digit-free, dot-free suffix contributes no tokens to the scan. -/
theorem numTokensGo_suffix {w : List Char} (hw : ∀ c ∈ w, c.isDigit = false ∧ c ≠ '.') :
    ∀ (s : List Char) (cur : List Char), numTokensGo (s ++ w) cur = numTokensGo s cur := by
  intro s
  induction s with
  | nil => intro cur; rw [List.nil_append, numTokensGo_close hw cur]; rfl
  | cons c s ih =>
    intro cur
    simp only [List.cons_append, numTokensGo]
    split
    · exact ih _
    · split
      · exact ih _
      · show (if cur = [] then [] else [cur]) ++ numTokensGo (s ++ w) [] = _
        rw [ih []]

/-- `trim` splits a string into whitespace, its trimmed core, and
whitespace. -/
theorem jsTrim_decomp (l : List Char) :
    ∃ w1 w2, (∀ c ∈ w1, isJsSpace c = true) ∧ (∀ c ∈ w2, isJsSpace c = true) ∧
      l = w1 ++ jsTrimL l ++ w2 := by
  refine ⟨l.takeWhile isJsSpace,
    ((l.dropWhile isJsSpace).reverse.takeWhile isJsSpace).reverse, ?_, ?_, ?_⟩
  · intro c hc; exact List.mem_takeWhile_imp hc
  · intro c hc
    rw [List.mem_reverse] at hc
    exact List.mem_takeWhile_imp hc
  · conv_lhs => rw [← List.takeWhile_append_dropWhile isJsSpace (l := l)]
    rw [List.append_assoc]
    congr 1
    conv_lhs => rw [← List.reverse_reverse (l.dropWhile isJsSpace),
      ← List.takeWhile_append_dropWhile isJsSpace (l := (l.dropWhile isJsSpace).reverse)]
    rw [List.reverse_append, jsTrimL]

/-- The numeric-token scan is invariant under `trim`: the regex matches only
digit-and-dot runs, which leading/trailing whitespace cannot affect. -/
theorem numTokensGo_trim (l : List Char) :
    numTokensGo l [] = numTokensGo (jsTrimL l) [] := by
  obtain ⟨w1, w2, h1, h2, hdec⟩ := jsTrim_decomp l
  have h1' : ∀ c ∈ w1, c.isDigit = false := fun c hc => (isJsSpace_not_token (h1 c hc)).1
  have h2' : ∀ c ∈ w2, c.isDigit = false ∧ c ≠ '.' :=
    fun c hc => isJsSpace_not_token (h2 c hc)
  conv_lhs => rw [hdec]
  rw [List.append_assoc, numTokensGo_prefix h1', numTokensGo_suffix h2']

/-- C9: for snapshots built by `scrapeData`'s extraction step (`numericTokens`
computed by the numeric regex over the raw page text, `mainText` stored
trimmed), equal `mainText` implies equal `numericTokens`, because token
extraction is a pure function of the page text invariant under the
leading/trailing whitespace removed by trimming; hence a diff of two scraped
snapshots never contains numeric-change without also containing
content-change. -/
theorem scraped_numbers_follow_mainText (raw1 raw2 : String)
    (tb1 tb2 : List (List (List String))) (u1 u2 ts1 ts2 e1 e2 : String) :
    ((mkScraped raw1 tb1 u1 ts1 e1).mainText = (mkScraped raw2 tb2 u2 ts2 e2).mainText →
      (mkScraped raw1 tb1 u1 ts1 e1).fields.numbers
        = (mkScraped raw2 tb2 u2 ts2 e2).fields.numbers)
  ∧ (numbersMsg ∈ compareData (mkScraped raw1 tb1 u1 ts1 e1) (mkScraped raw2 tb2 u2 ts2 e2) →
      mainTextMsg ∈ compareData (mkScraped raw1 tb1 u1 ts1 e1) (mkScraped raw2 tb2 u2 ts2 e2)) := by
  have key : jsTrim raw1 = jsTrim raw2 → extractNumbers raw1 = extractNumbers raw2 := by
    intro h
    have hL : jsTrimL raw1.data = jsTrimL raw2.data := by
      simpa [jsTrim, List.asString] using congrArg String.data h
    unfold extractNumbers
    rw [numTokensGo_trim raw1.data, hL, ← numTokensGo_trim raw2.data]
  constructor
  · intro h
    simp only [mkScraped] at h ⊢
    rw [key h]
  · intro hmem
    have hneq := (compareData_numbers_mem_iff _ _).mp hmem
    rw [compareData_mainText_mem_iff]
    intro heq
    apply hneq
    simp only [mkScraped] at heq ⊢
    rw [key heq]

/-- Witness for C9: the theorem applied to two concrete scrape pairs — one
pair whose raw texts differ only in surrounding whitespace (equal trimmed
`mainText`, hence equal tokens), and one pair with a genuine numeric change
(numeric-change present, hence content-change present). -/
theorem scraped_numbers_follow_mainText_witness :
    (mkScraped "  x 12\t" [] "u" "t" "e").fields.numbers
      = (mkScraped "x 12" [] "u" "t" "e").fields.numbers
  ∧ mainTextMsg ∈ compareData (mkScraped "a 12" [] "u" "t" "e")
      (mkScraped "a 13" [] "u" "t" "e") :=
  ⟨(scraped_numbers_follow_mainText "  x 12\t" "x 12" [] [] "u" "u" "t" "t" "e" "e").1
      (by decide),
   (scraped_numbers_follow_mainText "a 12" "a 13" [] [] "u" "u" "t" "t" "e" "e").2
      (by decide)⟩

/-- The fuel argument of the decimal printer is irrelevant once it exceeds
the number. -/
theorem decCharsAux_fuel : ∀ {f g n : Nat}, n < f → n < g →
    decCharsAux f n = decCharsAux g n := by
  intro f
  induction f with
  | zero => intro g n h; omega
  | succ f ih =>
    intro g n hf hg
    match g, hg with
    | g + 1, hg =>
      by_cases h10 : n < 10
      · simp [decCharsAux, h10]
      · have hd : n / 10 < f := by omega
        have hd' : n / 10 < g := by
          have := Nat.div_lt_self (by omega : 0 < n) (by omega : 1 < 10)
          omega
        simp only [decCharsAux, h10, if_false]
        rw [ih hd hd']

/-- A single digit prints as its digit character. -/
theorem decChars_lt10 {n : Nat} (h : n < 10) : decChars n = [Nat.digitChar n] := by
  simp [decChars, decCharsAux, h]

/-- A multi-digit number prints as its leading digits then its last digit. -/
theorem decChars_ge10 {n : Nat} (h : 10 ≤ n) :
    decChars n = decChars (n / 10) ++ [Nat.digitChar (n % 10)] := by
  have h1 : n / 10 < n := Nat.div_lt_self (by omega) (by omega)
  show decCharsAux (n + 1) n = _
  simp only [decCharsAux, Nat.not_lt.mpr h, if_false]
  rw [decCharsAux_fuel (by omega : n / 10 < n) (by omega : n / 10 < n / 10 + 1)]
  rfl

/-- A printed number is never empty. -/
theorem decChars_length_pos (n : Nat) : 0 < (decChars n).length := by
  by_cases h : n < 10
  · simp [decChars_lt10 h]
  · rw [decChars_ge10 (by omega)]
    simp

/-- One-digit numbers print with one character. -/
theorem decChars_len1 {n : Nat} (h : n < 10) : (decChars n).length = 1 := by
  simp [decChars_lt10 h]

/-- Printed length grows by one per decimal digit. -/
theorem decChars_len_succ {n : Nat} (h : 10 ≤ n) :
    (decChars n).length = (decChars (n / 10)).length + 1 := by
  rw [decChars_ge10 h]; simp

/-- Two-digit numbers print with two characters. -/
theorem decChars_len2 {n : Nat} (h1 : 10 ≤ n) (h2 : n < 100) : (decChars n).length = 2 := by
  rw [decChars_len_succ h1, decChars_len1 (by omega : n / 10 < 10)]

/-- Four-digit numbers (such as years) print with four characters. -/
theorem decChars_len4 {n : Nat} (h1 : 1000 ≤ n) (h2 : n < 10000) :
    (decChars n).length = 4 := by
  rw [decChars_len_succ (by omega), decChars_len_succ (by omega : 10 ≤ n / 10),
    decChars_len2 (by omega : 10 ≤ n / 10 / 10) (by omega : n / 10 / 10 < 100)]

/-- Digit characters are ordered like the digits they print. -/
theorem digitChar_mono {a b : Nat} (ha : a < 10) (hb : b < 10) (h : a < b) :
    Nat.digitChar a < Nat.digitChar b := by
  interval_cases a <;> interval_cases b <;> simp_all <;> decide

/-- Lexicographic order is stable under a common prefix. -/
theorem lex_prefix {α : Type} {r : α → α → Prop} (P : List α) {u v : List α}
    (h : List.Lex r u v) : List.Lex r (P ++ u) (P ++ v) := by
  induction P with
  | nil => simpa using h
  | cons a P ih => exact List.Lex.cons ih

/-- Two equal-length lex-ordered segments order any extensions of them. -/
theorem lex_append_of_length_eq {α : Type} {r : α → α → Prop} :
    ∀ {A B : List α}, A.length = B.length → List.Lex r A B →
      ∀ (u v : List α), List.Lex r (A ++ u) (B ++ v) := by
  intro A B hlen h
  induction h with
  | nil => simp at hlen
  | rel hr => intro u v; exact List.Lex.rel hr
  | cons h ih =>
    intro u v
    exact List.Lex.cons (ih (by simpa using hlen) u v)

/-- Equal-length printed numbers are lexicographically ordered like the
numbers themselves. -/
theorem dec_lt : ∀ {b a : Nat}, (decChars a).length = (decChars b).length → a < b →
    List.Lex (· < ·) (decChars a) (decChars b) := by
  intro b
  induction b using Nat.strong_induction_on with
  | _ b ih =>
    intro a hlen hab
    by_cases hb : b < 10
    · rw [decChars_lt10 hb, decChars_lt10 (by omega : a < 10)]
      exact List.Lex.rel (digitChar_mono (by omega) hb hab)
    · push_neg at hb
      have ha : 10 ≤ a := by
        by_contra ha
        push_neg at ha
        rw [decChars_len1 ha, decChars_len_succ hb] at hlen
        have := decChars_length_pos (b / 10)
        omega
      have hlen' : (decChars (a / 10)).length = (decChars (b / 10)).length := by
        rw [decChars_len_succ ha, decChars_len_succ hb] at hlen
        omega
      rw [decChars_ge10 ha, decChars_ge10 hb]
      rcases Nat.lt_or_ge (a / 10) (b / 10) with hdiv | hdiv
      · exact lex_append_of_length_eq hlen'
          (ih (b / 10) (Nat.div_lt_self (by omega) (by omega)) hlen' hdiv) _ _
      · have hdeq : a / 10 = b / 10 := by
          have hd2 : a / 10 ≤ b / 10 := Nat.div_le_div_right (le_of_lt hab)
          omega
        have hmod : a % 10 < b % 10 := by
          have h1 := Nat.div_add_mod a 10
          have h2 := Nat.div_add_mod b 10
          omega
        rw [hdeq]
        exact lex_prefix _ (List.Lex.rel (digitChar_mono (Nat.mod_lt _ (by omega))
          (Nat.mod_lt _ (by omega)) hmod))

/-- Padded fields of two-digit-bounded values have length two. -/
theorem field2_len {n : Nat} (h : n < 100) : (field2 n).length = 2 := by
  by_cases h10 : n < 10
  · simp [field2, padStart2, decChars_len1 h10]
  · simp [field2, padStart2, decChars_len2 (by omega) h]

/-- Padding a one-digit field prepends a zero. -/
theorem field2_lt10 {n : Nat} (h : n < 10) : field2 n = ['0', Nat.digitChar n] := by
  simp [field2, padStart2, decChars_len1 h, decChars_lt10 h]

/-- A two-digit field needs no padding. -/
theorem field2_ge10 {n : Nat} (h1 : 10 ≤ n) (h2 : n < 100) :
    field2 n = [Nat.digitChar (n / 10), Nat.digitChar (n % 10)] := by
  have hdc : decChars n = [Nat.digitChar (n / 10), Nat.digitChar (n % 10)] := by
    rw [decChars_ge10 h1, decChars_lt10 (by omega : n / 10 < 10)]
    rfl
  simp [field2, padStart2, hdc]

/-- Zero-padded two-character fields are lexicographically ordered like their
values: this is the zero-padding property the store's names rely on. -/
theorem field2_mono {a b : Nat} (hab : a < b) (hb : b < 100) :
    List.Lex (· < ·) (field2 a) (field2 b) := by
  by_cases hb10 : b < 10
  · rw [field2_lt10 (by omega), field2_lt10 hb10]
    exact List.Lex.cons (List.Lex.rel (digitChar_mono (by omega) hb10 hab))
  · push_neg at hb10
    by_cases ha10 : a < 10
    · rw [field2_lt10 ha10, field2_ge10 hb10 hb]
      have hz : ('0' : Char) < Nat.digitChar (b / 10) := by
        have h2 : b / 10 < 10 := by omega
        have := digitChar_mono (by omega : (0 : Nat) < 10) h2 (by omega : 0 < b / 10)
        simpa using this
      exact List.Lex.rel hz
    · push_neg at ha10
      have ea : field2 a = decChars a := by
        simp [field2, padStart2, decChars_len2 ha10 (by omega : a < 100)]
      have eb : field2 b = decChars b := by
        simp [field2, padStart2, decChars_len2 hb10 hb]
      rw [ea, eb]
      exact dec_lt (by rw [decChars_len2 ha10 (by omega : a < 100),
        decChars_len2 hb10 hb]) hab

/-- Chronologically ordered capture times produce lexicographically ordered
file-name character lists. -/
theorem filenameChars_lex {t1 t2 : LocalTime} (h1 : validTime t1) (h2 : validTime t2)
    (h : chronoLt t1 t2) :
    List.Lex (· < ·) (filenameChars t1) (filenameChars t2) := by
  obtain ⟨y1, mo1, d1, hh1, mi1, s1⟩ := t1
  obtain ⟨y2, mo2, d2, hh2, mi2, s2⟩ := t2
  obtain ⟨hy1a, hy1b, hm1, hd1, hh1', hmi1, hs1⟩ := h1
  obtain ⟨hy2a, hy2b, hm2, hd2, hh2', hmi2, hs2⟩ := h2
  simp only [chronoLt] at h
  simp only [filenameChars, List.append_assoc]
  apply lex_prefix
  rcases h with hy | ⟨hy, h⟩
  · exact lex_append_of_length_eq
      (by rw [decChars_len4 hy1a hy1b, decChars_len4 hy2a hy2b])
      (dec_lt (by rw [decChars_len4 hy1a hy1b, decChars_len4 hy2a hy2b]) hy) _ _
  · subst hy
    apply lex_prefix
    apply lex_prefix
    rcases h with hm | ⟨hm, h⟩
    · exact lex_append_of_length_eq (by rw [field2_len hm1, field2_len hm2])
        (field2_mono hm hm2) _ _
    · subst hm
      apply lex_prefix
      apply lex_prefix
      rcases h with hd | ⟨hd, h⟩
      · exact lex_append_of_length_eq (by rw [field2_len hd1, field2_len hd2])
          (field2_mono hd hd2) _ _
      · subst hd
        apply lex_prefix
        apply lex_prefix
        rcases h with hh | ⟨hh, h⟩
        · exact lex_append_of_length_eq (by rw [field2_len hh1', field2_len hh2'])
            (field2_mono hh hh2') _ _
        · subst hh
          apply lex_prefix
          apply lex_prefix
          rcases h with hmi | ⟨hmi, h⟩
          · exact lex_append_of_length_eq (by rw [field2_len hmi1, field2_len hmi2])
              (field2_mono hmi hmi2) _ _
          · subst hmi
            apply lex_prefix
            apply lex_prefix
            exact lex_append_of_length_eq (by rw [field2_len hs1, field2_len hs2])
              (field2_mono h hs2) _ _

/-- Chronological order of capture times implies lexicographic order of the
snapshot file names. -/
theorem fileName_lt {t1 t2 : LocalTime} (h1 : validTime t1) (h2 : validTime t2)
    (h : chronoLt t1 t2) : fileName t1 < fileName t2 := by
  rw [String.lt_iff_toList_lt]
  exact filenameChars_lex h1 h2 h

/-- Capture times are totally ordered by `chronoLt`. -/
theorem chrono_trichotomy (a b : LocalTime) :
    a = b ∨ chronoLt a b ∨ chronoLt b a := by
  obtain ⟨y1, mo1, d1, h1, mi1, s1⟩ := a
  obtain ⟨y2, mo2, d2, h2, mi2, s2⟩ := b
  simp only [chronoLt, LocalTime.mk.injEq]
  omega

/-- Distinct capture times (at the encoding's one-second resolution) produce
distinct snapshot file names. -/
theorem fileName_ne {t1 t2 : LocalTime} (h1 : validTime t1) (h2 : validTime t2)
    (h : t1 ≠ t2) : fileName t1 ≠ fileName t2 := by
  rcases chrono_trichotomy t1 t2 with he | hlt | hgt
  · exact absurd he h
  · exact ne_of_lt (fileName_lt h1 h2 hlt)
  · exact (ne_of_lt (fileName_lt h2 h1 hgt)).symm

/-- C4: a snapshot written by `saveData` gets a new uniquely named entry
derived from its capture time — names from distinct capture times never
coincide, because the encoding has one-second resolution — and, provided
every existing entry was written at a different capture time (as holds
within a run, where each record's directory receives one write), the write
is a pure append: no existing entry is overwritten and all are preserved. -/
theorem saveData_never_overwrites (t : LocalTime) (d : ScrapedData)
    (store : List (String × ScrapedData)) (hv : validTime t)
    (hstore : ∀ e ∈ store, ∃ t', validTime t' ∧ t' ≠ t ∧ e.1 = fileName t') :
    (∀ t', validTime t' → t' ≠ t → fileName t' ≠ fileName t)
  ∧ fileName t ∉ store.map Prod.fst
  ∧ (saveData t d store).2 = store ++ [(fileName t, d)]
  ∧ (saveData t d store).1 = fileName t := by
  have hne : ∀ e ∈ store, e.1 ≠ fileName t := by
    intro e he
    obtain ⟨t', hvt', hne', heq⟩ := hstore e he
    rw [heq]
    exact fileName_ne hvt' hv hne'
  refine ⟨fun t' hvt' hne' => fileName_ne hvt' hv hne', ?_, ?_, rfl⟩
  · intro hmem
    obtain ⟨e, he, heq⟩ := List.mem_map.mp hmem
    exact hne e he heq
  · have hany : store.any (fun e => e.1 = fileName t) = false := by
      rw [List.any_eq_false]
      intro e he
      simpa using hne e he
    simp [saveData, writeFile, hany]

/-- Witness for C4: a store holding one snapshot saved a second earlier; the
new write appends without touching it. -/
theorem saveData_never_overwrites_witness :
    (∀ t', validTime t' → t' ≠ ⟨2024, 5, 6, 7, 8, 10⟩ →
      fileName t' ≠ fileName ⟨2024, 5, 6, 7, 8, 10⟩)
  ∧ fileName ⟨2024, 5, 6, 7, 8, 10⟩ ∉
      [(fileName ⟨2024, 5, 6, 7, 8, 9⟩,
        ScrapedData.mk "t" ⟨some [], some []⟩ "u" "ts" "E")].map Prod.fst
  ∧ (saveData ⟨2024, 5, 6, 7, 8, 10⟩
      (ScrapedData.mk "t2" ⟨some [], some []⟩ "u" "ts" "E")
      [(fileName ⟨2024, 5, 6, 7, 8, 9⟩,
        ScrapedData.mk "t" ⟨some [], some []⟩ "u" "ts" "E")]).2
    = [(fileName ⟨2024, 5, 6, 7, 8, 9⟩,
        ScrapedData.mk "t" ⟨some [], some []⟩ "u" "ts" "E")] ++
      [(fileName ⟨2024, 5, 6, 7, 8, 10⟩,
        ScrapedData.mk "t2" ⟨some [], some []⟩ "u" "ts" "E")]
  ∧ (saveData ⟨2024, 5, 6, 7, 8, 10⟩
      (ScrapedData.mk "t2" ⟨some [], some []⟩ "u" "ts" "E")
      [(fileName ⟨2024, 5, 6, 7, 8, 9⟩,
        ScrapedData.mk "t" ⟨some [], some []⟩ "u" "ts" "E")]).1
    = fileName ⟨2024, 5, 6, 7, 8, 10⟩ :=
  saveData_never_overwrites ⟨2024, 5, 6, 7, 8, 10⟩
    (ScrapedData.mk "t2" ⟨some [], some []⟩ "u" "ts" "E")
    [(fileName ⟨2024, 5, 6, 7, 8, 9⟩,
      ScrapedData.mk "t" ⟨some [], some []⟩ "u" "ts" "E")]
    (by decide)
    (by
      intro e he
      refine ⟨⟨2024, 5, 6, 7, 8, 9⟩, by decide, by decide, ?_⟩
      simp only [List.mem_singleton] at he
      rw [he])

/-- Every name `saveData` produces passes `getLatestDataFile`'s filter. -/
theorem fileFilter_fileName (t : LocalTime) : fileFilter (fileName t) = true := by
  have hdata : (fileName t).data = filenameChars t := rfl
  apply Bool.and_eq_true_iff.mpr
  constructor
  · rw [List.isPrefixOf_iff_prefix, hdata]
    simp only [filenameChars, List.append_assoc]
    exact List.prefix_append _ _
  · rw [List.isSuffixOf_iff_suffix, hdata]
    simp only [filenameChars]
    exact List.suffix_append _ _

/-- The last element of an ascending sorted list bounds every element. -/
theorem sorted_getLast?_max {l : List String} (hs : l.Sorted (· ≤ ·)) :
    ∀ {m x : String}, l.getLast? = some m → x ∈ l → x ≤ m := by
  induction l with
  | nil => intro m x hm hx; cases hx
  | cons a t ih =>
    intro m x hm hx
    rw [List.sorted_cons] at hs
    obtain ⟨hall, hst⟩ := hs
    cases t with
    | nil =>
      simp at hm hx
      subst hm hx
      exact le_refl _
    | cons b t' =>
      rw [List.getLast?_cons_cons] at hm
      rcases List.mem_cons.mp hx with rfl | hx'
      · exact hall _ (List.mem_of_getLast?_eq_some hm)
      · exact ih hst hm hx'

/-- C5: `getLatestDataFile` returns an explicit `none` when no history exists,
the zero-padded timestamp encoding makes lexicographic name order coincide
exactly with chronological capture order, and consequently on any directory
of snapshots with valid pairwise-distinct capture times it returns the name
of the most recently captured snapshot. -/
theorem getLatestDataFile_returns_latest (L : List LocalTime) (t : LocalTime)
    (hv : ∀ u ∈ L, validTime u) (ht : t ∈ L)
    (hmax : ∀ u ∈ L, u ≠ t → chronoLt u t) :
    getLatestDataFile [] = none
  ∧ (∀ u1 u2, validTime u1 → validTime u2 →
      (chronoLt u1 u2 ↔ fileName u1 < fileName u2))
  ∧ getLatestDataFile (L.map fileName) = some (fileName t) := by
  refine ⟨rfl, ?_, ?_⟩
  · intro u1 u2 hv1 hv2
    constructor
    · exact fileName_lt hv1 hv2
    · intro hlt
      rcases chrono_trichotomy u1 u2 with rfl | h | h
      · exact absurd hlt (lt_irrefl _)
      · exact h
      · exact absurd hlt (not_lt_of_gt (fileName_lt hv2 hv1 h))
  · set names := L.map fileName with hnames
    have hfilter : names.filter fileFilter = names := by
      rw [List.filter_eq_self]
      intro f hf
      obtain ⟨u, hu, rfl⟩ := List.mem_map.mp hf
      exact fileFilter_fileName u
    have hperm : List.Perm (names.insertionSort (· ≤ ·)) names :=
      List.perm_insertionSort _ _
    have hsorted : (names.insertionSort (· ≤ ·)).Sorted (· ≤ ·) :=
      List.sorted_insertionSort _ _
    have hmemt : fileName t ∈ names := List.mem_map_of_mem _ ht
    have hne : names.insertionSort (· ≤ ·) ≠ [] := by
      intro hnil
      have hmem2 : fileName t ∈ names.insertionSort (· ≤ ·) := hperm.mem_iff.mpr hmemt
      rw [hnil] at hmem2
      cases hmem2
    have hlast := List.getLast?_eq_getLast _ hne
    set m := (names.insertionSort (· ≤ ·)).getLast hne with hm
    have hmmem : m ∈ names := hperm.mem_iff.mp (List.getLast_mem hne)
    obtain ⟨u, hu, hum⟩ := List.mem_map.mp hmmem
    have hle1 : fileName t ≤ m :=
      sorted_getLast?_max hsorted hlast (hperm.mem_iff.mpr hmemt)
    have hle2 : m ≤ fileName t := by
      rcases eq_or_ne u t with rfl | hneq
      · exact le_of_eq hum.symm
      · rw [← hum]
        exact le_of_lt (fileName_lt (hv u hu) (hv t ht) (hmax u hu hneq))
    have hmt : m = fileName t := le_antisymm hle2 hle1
    rw [getLatestDataFile, hfilter, List.head?_reverse, hlast, hmt]

/-- Witness for C5: a two-snapshot history where the second capture is one
minute later; `getLatestDataFile` returns its name. -/
theorem getLatestDataFile_returns_latest_witness :
    getLatestDataFile [] = none
  ∧ (∀ u1 u2, validTime u1 → validTime u2 →
      (chronoLt u1 u2 ↔ fileName u1 < fileName u2))
  ∧ getLatestDataFile
      ([⟨2024, 5, 6, 7, 8, 9⟩, (⟨2024, 5, 6, 7, 9, 0⟩ : LocalTime)].map fileName)
      = some (fileName ⟨2024, 5, 6, 7, 9, 0⟩) :=
  getLatestDataFile_returns_latest
    [⟨2024, 5, 6, 7, 8, 9⟩, ⟨2024, 5, 6, 7, 9, 0⟩] ⟨2024, 5, 6, 7, 9, 0⟩
    (by decide) (by simp) (by decide)

end PioSpec
